import Mathlib

/-!
# Verification of the ScriptsToImageVoice subtitle timing-alignment engine

Shallow embedding of the subtitle alignment core of the repository:

* `src/pipeline/subtitles.py` — the refactored engine
  (`extract_segments_from_scene`, `analyze_voice_query_timing`,
  `generate_combined_subtitles`);
* `src/scene_subtitle_generator.py` — the legacy engine (same function
  names; embedded here under `legacy_*` names).

Python floats are modelled as exact rationals (`ℚ`), JSON-absent or
null values as `Option`, and Python exceptions as `Except PyError`.
The exceptions relevant to the engine are `AssertionError` (raised by
the boundary-character asserts — the spec's `AlignmentError`),
`KeyError` (raised by `phrase["pause_mora"]` when the key is missing)
and `SubtitleGenerationError` (raised when `voice_query.json` cannot
be read).
-/

set_option allowUnsafeReducibility true

attribute [semireducible] Rat.add Rat.mul Rat.div Rat.inv Rat.sub Rat.neg Rat.blt

/-- Python exceptions that the subtitle engine can raise. -/
inductive PyError where
  | assertionError
  | keyError
  | subtitleGenerationError
  deriving DecidableEq, Repr

deriving instance DecidableEq for Except

/-- Python's `s.endswith(t)`: `t` is a suffix of `s`
(as code-point sequences). -/
def pyEndsWith (s t : String) : Bool := t.data.isSuffixOf s.data

/-- Python's `s.strip()`: drop leading and trailing whitespace
(as code-point sequences). -/
def pyStrip (s : String) : String :=
  String.mk (((s.data.dropWhile Char.isWhitespace).reverse.dropWhile
    Char.isWhitespace).reverse)

/-- A mora of a VOICEVOX accent phrase: `text` (absent/null → `none`),
`consonant_length` and `vowel_length` (absent/null → `none`, read via
`mora.get(...) or 0.0`). -/
structure Mora where
  text : Option String
  consonant_length : Option ℚ
  vowel_length : Option ℚ
  deriving DecidableEq, Repr

/-- A pause mora: only its two duration fields are read by the engine. -/
structure PauseMora where
  vowel_length : Option ℚ
  consonant_length : Option ℚ
  deriving DecidableEq, Repr

/-- One accent phrase of a VOICEVOX audio query.  `moras = none` models an
absent `"moras"` key.  `pause_mora = none` models an *absent*
`"pause_mora"` key (so `phrase["pause_mora"]` raises `KeyError`), while
`pause_mora = some none` models a present key holding JSON `null`. -/
structure AccentPhrase where
  moras : Option (List Mora)
  pause_mora : Option (Option PauseMora)
  deriving DecidableEq, Repr

/-- The part of `voice_query.json` the engine reads. `speedScale = none`
models an absent key (read via `query_data.get("speedScale", 1.0)`). -/
structure VoiceQuery where
  accent_phrases : List AccentPhrase
  speedScale : Option ℚ
  deriving DecidableEq, Repr

/-- A segment dict produced by `extract_segments_from_scene`:
`{"text": ..., "kana_text": ..., "type": ...}`. -/
structure SegIn where
  text : String
  kana_text : String
  type : String
  deriving DecidableEq, Repr

/-- `pipeline.types.SubtitleSegment` (dataclass). -/
structure SubtitleSegment where
  index : Nat
  start_time : ℚ
  end_time : ℚ
  text : String
  kana_text : String
  segment_type : String
  deriving DecidableEq, Repr

/-- One entry of the `char_times` list built by
`analyze_voice_query_timing`. -/
structure CharTime where
  char : String
  char_pos : Nat
  start_time : ℚ
  end_time : ℚ
  deriving DecidableEq, Repr

/-- One entry of the `seg_positions` list built by
`analyze_voice_query_timing`: the segment together with its character
range in the concatenation and its boundary fingerprints
(`kana[:3]` and `kana[-3:]`). -/
structure SegPos where
  segment : SegIn
  start_pos : Nat
  end_pos : Nat
  start_chars : String
  end_chars : String
  deriving DecidableEq, Repr

/-- A content entry of `scene_sub.json`: `texts` (absent → `none`, read
via `content.get("texts") or []`) and `texts_kana` (absent → `none`). -/
structure Content where
  texts : Option (List String)
  texts_kana : Option (List String)
  deriving DecidableEq, Repr

/-- The part of `scene_sub.json` read by `extract_segments_from_scene`. -/
structure SceneData where
  title : Option String
  title_kana : Option String
  contents : Option (List Content)
  deriving DecidableEq, Repr

/-- Input of one scene to `generate_combined_subtitles`:
`query = none` models an unreadable `voice_query.json` (which makes
`analyze_voice_query_timing` raise `SubtitleGenerationError`). -/
structure SceneInput where
  query : Option VoiceQuery
  scene : SceneData
  deriving DecidableEq, Repr

/-- `extract_segments_from_scene` (src/pipeline/subtitles.py lines 16-37). -/
def extract_segments_from_scene (scene_data : SceneData) : List SegIn :=
  let title_kana : String :=
    match scene_data.title_kana with
    | some s => pyStrip s
    | none => ""
  let titleSegs : List SegIn :=
    if title_kana = "" then []
    else [{ text := pyStrip (scene_data.title.getD ""),
            kana_text := title_kana,
            type := "title-kana" }]
  let contentSegs : List SegIn :=
    (scene_data.contents.getD []).flatMap fun content =>
      match content.texts_kana with
      | none => []
      | some kana_list =>
        let texts_list := content.texts.getD []
        kana_list.enum.filterMap fun ik =>
          if pyStrip ik.2 = "" then none
          else some { text := pyStrip (texts_list.getD ik.1 ""),
                      kana_text := pyStrip ik.2,
                      type := "kana" }
  titleSegs ++ contentSegs

/-- The effective speed scale of the refactored engine:
`query_data.get("speedScale", 1.0) or 1.0` (so both an absent key and a
falsy value, in particular `0.0`, fall back to `1.0`). -/
def refacSpeed (q : VoiceQuery) : ℚ :=
  match q.speedScale with
  | none => 1
  | some s => if s = 0 then 1 else s

/-- The closed set of non-advancing mora texts:
`["pau", "cl", "N", "U", "I"]`. -/
def pauseMarkers : List String := ["pau", "cl", "N", "U", "I"]

/-- State of the timeline-building loop of `analyze_voice_query_timing`:
`char_times`, `cur_time`, `cur_pos`. -/
structure TLState where
  char_times : List CharTime
  cur_time : ℚ
  cur_pos : Nat
  deriving DecidableEq, Repr

/-- One mora of the refactored timeline loop
(src/pipeline/subtitles.py lines 70-87): per-mora durations are divided
by `speed_scale`; non-advancing markers add time only. -/
def moraStep (speed_scale : ℚ) (st : TLState) (mora : Mora) : TLState :=
  match mora.text with
  | none => st
  | some ch =>
    let consonant_length := (mora.consonant_length.getD 0) / speed_scale
    let vowel_length := (mora.vowel_length.getD 0) / speed_scale
    let dur := consonant_length + vowel_length
    if ch ∈ pauseMarkers then
      { st with cur_time := st.cur_time + dur }
    else
      { char_times := st.char_times ++
          [{ char := ch, char_pos := st.cur_pos,
             start_time := st.cur_time, end_time := st.cur_time + dur }],
        cur_time := st.cur_time + dur,
        cur_pos := st.cur_pos + ch.length }

/-- One accent phrase of the refactored timeline loop
(src/pipeline/subtitles.py lines 69-92): after the morae,
`phrase["pause_mora"]` is read unconditionally (`KeyError` when the key
is absent) and a non-null pause adds
`(vowel_length + consonant_length) / 1.1` to elapsed time only. -/
def phraseStep (speed_scale : ℚ) (st : TLState) (phrase : AccentPhrase) :
    Except PyError TLState :=
  let st1 := (phrase.moras.getD []).foldl (moraStep speed_scale) st
  match phrase.pause_mora with
  | none => .error .keyError
  | some none => .ok st1
  | some (some pause) =>
    let pause_vowel := pause.vowel_length.getD 0
    let pause_consonant := pause.consonant_length.getD 0
    .ok { st1 with
          cur_time := st1.cur_time + (pause_vowel + pause_consonant) / (11/10 : ℚ) }

/-- The full timeline loop of the refactored
`analyze_voice_query_timing` (src/pipeline/subtitles.py lines 65-92). -/
def buildTimeline (speed_scale : ℚ) (accent_phrases : List AccentPhrase) :
    Except PyError TLState :=
  accent_phrases.foldlM (phraseStep speed_scale) { char_times := [], cur_time := 0, cur_pos := 0 }

/-- The segment-locating loop of `analyze_voice_query_timing`
(src/pipeline/subtitles.py lines 50-63): concatenate each segment's
`kana_text`, record its character range and its first/last three
characters. -/
def locStep (acc : String × List SegPos) (seg : SegIn) : String × List SegPos :=
  let combined := acc.1
  let start_pos := combined.length
  let combined2 := combined ++ seg.kana_text
  let end_pos := combined2.length
  (combined2,
   acc.2 ++ [{ segment := seg, start_pos := start_pos, end_pos := end_pos,
               start_chars := seg.kana_text.take 3,
               end_chars := seg.kana_text.takeRight 3 }])

/-- The segment-locating loop itself, folding `locStep` over the
segments starting from the empty concatenation. -/
def locateSegments (segments : List SegIn) : List SegPos :=
  (segments.foldl locStep ("", [])).2

/-- Python's `s[-n:]`: the last `n` characters, except that `s[-0:]` is
the whole string. -/
def pySliceLast (s : String) (n : Nat) : String :=
  if n = 0 then s else s.takeRight n

/-- The start-time scan of `analyze_voice_query_timing`
(src/pipeline/subtitles.py lines 100-106): the first sample whose
`char_pos >= start_pos` supplies `start_time` after the
boundary-character assert; default `0.0`. -/
def findStartTime (sp : SegPos) : List CharTime → Except PyError ℚ
  | [] => .ok 0
  | ct :: rest =>
    if sp.start_pos ≤ ct.char_pos then
      if ct.char = sp.start_chars.take ct.char.length then .ok ct.start_time
      else .error .assertionError
    else findStartTime sp rest

/-- The body of the reverse end-time scan: takes the already reversed
sample list. -/
def findEndRev (cur_time : ℚ) (sp : SegPos) : List CharTime → Except PyError ℚ
  | [] => .ok cur_time
  | ct :: rest =>
    if ct.char_pos < sp.end_pos then
      if ct.char = pySliceLast sp.end_chars ct.char.length then .ok ct.end_time
      else .error .assertionError
    else findEndRev cur_time sp rest

/-- The end-time scan of `analyze_voice_query_timing`
(src/pipeline/subtitles.py lines 108-115): the first sample *from the
end* whose `char_pos < end_pos` supplies `end_time` after the
boundary-character assert; default: the unit's total elapsed time. -/
def findEndTime (cur_time : ℚ) (sp : SegPos) (char_times : List CharTime) :
    Except PyError ℚ :=
  findEndRev cur_time sp char_times.reverse

/-- The cosmetic trailing-punctuation trimming of
`analyze_voice_query_timing` (src/pipeline/subtitles.py lines 120-124):
a single trailing ASCII `"."` (resp. `","`) is dropped unless doubled. -/
def stripPunct (text_val : String) : String :=
  let text1 := if pyEndsWith text_val "." && !(pyEndsWith text_val "..")
               then text_val.dropRight 1 else text_val
  if pyEndsWith text1 "," && !(pyEndsWith text1 ",,")
  then text1.dropRight 1 else text1

/-- The per-segment resolution of `analyze_voice_query_timing`
(src/pipeline/subtitles.py lines 95-133), for the entry at `enumerate`
index `ip.1`. -/
def resolveSegment (char_times : List CharTime) (cur_time : ℚ)
    (ip : Nat × SegPos) : Except PyError SubtitleSegment := do
  let start_time ← findStartTime ip.2 char_times
  let end_time ← findEndTime cur_time ip.2 char_times
  pure { index := ip.1 + 1,
         start_time := start_time,
         end_time := end_time,
         text := stripPunct ip.2.segment.text,
         kana_text := ip.2.segment.kana_text,
         segment_type := ip.2.segment.type }

/-- `analyze_voice_query_timing` (src/pipeline/subtitles.py lines
40-140), with the `voice_query.json` contents passed directly. -/
def analyze_voice_query_timing (query_data : VoiceQuery)
    (segments : List SegIn) : Except PyError (List SubtitleSegment) := do
  let speed_scale := refacSpeed query_data
  let seg_positions := locateSegments segments
  let st ← buildTimeline speed_scale query_data.accent_phrases
  seg_positions.enum.mapM (resolveSegment st.char_times st.cur_time)

/-- One mora of the legacy timeline loop
(src/scene_subtitle_generator.py lines 128-155): durations are *not*
divided by `speedScale` here (the division happens once at the end). -/
def legacyMoraStep (st : TLState) (mora : Mora) : TLState :=
  match mora.text with
  | none => st
  | some ch =>
    let consonant_length := mora.consonant_length.getD 0
    let vowel_length := mora.vowel_length.getD 0
    let char_duration := consonant_length + vowel_length
    if ch ∈ pauseMarkers then
      { st with cur_time := st.cur_time + char_duration }
    else
      { char_times := st.char_times ++
          [{ char := ch, char_pos := st.cur_pos,
             start_time := st.cur_time, end_time := st.cur_time + char_duration }],
        cur_time := st.cur_time + char_duration,
        cur_pos := st.cur_pos + ch.length }

/-- One accent phrase of the legacy timeline loop
(src/scene_subtitle_generator.py lines 126-172): the pause mora is read
guardedly (`if "pause_mora" in phrase and phrase["pause_mora"]`) and
only its `vowel_length` is added, undamped. -/
def legacyPhraseStep (st : TLState) (phrase : AccentPhrase) : TLState :=
  let st1 := (phrase.moras.getD []).foldl legacyMoraStep st
  match phrase.pause_mora with
  | some (some pause_mora) =>
    { st1 with cur_time := st1.cur_time + pause_mora.vowel_length.getD 0 }
  | _ => st1

/-- The full legacy timeline loop
(src/scene_subtitle_generator.py lines 121-172). -/
def legacyBuildTimeline (accent_phrases : List AccentPhrase) : TLState :=
  accent_phrases.foldl legacyPhraseStep { char_times := [], cur_time := 0, cur_pos := 0 }

/-- The legacy effective speed scale:
`query_data.get("speedScale", 1.0)` (no falsy fallback). -/
def legacySpeed (q : VoiceQuery) : ℚ := q.speedScale.getD 1

/-- The per-segment resolution of the legacy
`analyze_voice_query_timing` (src/scene_subtitle_generator.py lines
177-219): identical scans and asserts, but the found (or default) raw
times are divided by `speedScale` once at the end. -/
def legacyResolveSegment (char_times : List CharTime) (cur_time speed_scale : ℚ)
    (ip : Nat × SegPos) : Except PyError SubtitleSegment := do
  let start_time ← findStartTime ip.2 char_times
  let end_time ← findEndTime cur_time ip.2 char_times
  pure { index := ip.1 + 1,
         start_time := start_time / speed_scale,
         end_time := end_time / speed_scale,
         text := stripPunct ip.2.segment.text,
         kana_text := ip.2.segment.kana_text,
         segment_type := ip.2.segment.type }

/-- The legacy `analyze_voice_query_timing`
(src/scene_subtitle_generator.py lines 74-227).  Its segment-locating
loop (lines 100-115) and its scan loops are character-for-character the
ones of the refactored engine, so `locateSegments`, `findStartTime` and
`findEndTime` are shared. -/
def legacy_analyze_voice_query_timing (query_data : VoiceQuery)
    (segments : List SegIn) : Except PyError (List SubtitleSegment) := do
  let speed_scale := legacySpeed query_data
  let seg_positions := locateSegments segments
  let st := legacyBuildTimeline query_data.accent_phrases
  seg_positions.enum.mapM (legacyResolveSegment st.char_times st.cur_time speed_scale)

/-- The offset-and-reindex step of `generate_combined_subtitles`
(src/pipeline/subtitles.py lines 184-188): `base` is the number of
segments already accumulated. -/
def offsetSegments (current_time_offset : ℚ) (base : Nat)
    (scene_segments : List SubtitleSegment) : List SubtitleSegment :=
  scene_segments.enum.map fun jp =>
    { jp.2 with
      start_time := jp.2.start_time + current_time_offset,
      end_time := jp.2.end_time + current_time_offset,
      index := base + jp.1 + 1 }

/-- One scene of the loop of `generate_combined_subtitles`
(src/pipeline/subtitles.py lines 170-192): sceneless/failed units are
skipped (`AssertionError` and `SubtitleGenerationError` are caught;
`KeyError` is not), surviving segments are offset and appended, and the
offset becomes the last *shifted* segment's `end_time` plus
`silence_duration`. -/
def sceneStep (silence_duration : ℚ)
    (st : List SubtitleSegment × ℚ) (sc : SceneInput) :
    Except PyError (List SubtitleSegment × ℚ) :=
  let all_segments := st.1
  let current_time_offset := st.2
  let segments := extract_segments_from_scene sc.scene
  if segments.isEmpty then .ok st
  else
    match (match sc.query with
           | none => Except.error PyError.subtitleGenerationError
           | some q => analyze_voice_query_timing q segments) with
    | .error .keyError => .error .keyError
    | .error .assertionError => .ok st
    | .error .subtitleGenerationError => .ok st
    | .ok scene_segments =>
      let shifted := offsetSegments current_time_offset all_segments.length scene_segments
      let all2 := all_segments ++ shifted
      match shifted.getLast? with
      | some lastSeg => .ok (all2, lastSeg.end_time + silence_duration)
      | none => .ok (all2, current_time_offset)

/-- The forward gap-closing pass of `generate_combined_subtitles`
(src/pipeline/subtitles.py lines 202-204): each segment's `end_time` is
extended to the next segment's (never-mutated) `start_time` when it
falls short. -/
def gapClose : List SubtitleSegment → List SubtitleSegment
  | [] => []
  | [s] => [s]
  | s :: t :: rest =>
    (if s.end_time < t.start_time then { s with end_time := t.start_time } else s)
      :: gapClose (t :: rest)

/-- `generate_combined_subtitles` (src/pipeline/subtitles.py lines
148-215), with the already-ordered scene inputs passed directly (the
directory walk is I/O).  `Except.ok none` models the `(False, "")`
returns (no scenes, or no surviving segments); an uncaught `KeyError`
escapes as `Except.error`. -/
def generate_combined_subtitles (scene_files : List SceneInput)
    (silence_duration : ℚ) : Except PyError (Option (List SubtitleSegment)) := do
  if scene_files.isEmpty then
    pure none
  else
    let st ← scene_files.foldlM (sceneStep silence_duration) ([], 0)
    if st.1.isEmpty then pure none
    else pure (some (gapClose st.1))

/-! ## Auxiliary predicates and concrete inputs used by the verification -/

/-- The relation between consecutive timeline samples that
`analyze_voice_query_timing`'s builder maintains: the character position
advances exactly by the emitted character's length (hence is
non-decreasing) and times are non-decreasing. -/
def ctRel (a b : CharTime) : Prop :=
  b.char_pos = a.char_pos + a.char.length ∧
  a.end_time ≤ b.start_time ∧
  a.char_pos ≤ b.char_pos ∧
  a.start_time ≤ b.start_time

/-- Invariant of the timeline-building state: every sample is
well-formed and finished before `cur_time`, the last sample ends exactly
at the character cursor, and consecutive samples are `ctRel`-chained. -/
def tlGood (st : TLState) : Prop :=
  (∀ ct ∈ st.char_times, ct.start_time ≤ ct.end_time ∧ ct.end_time ≤ st.cur_time) ∧
  (∀ lastCt, st.char_times.getLast? = some lastCt →
      lastCt.char_pos + lastCt.char.length = st.cur_pos) ∧
  List.Chain' ctRel st.char_times

/-- Non-negativity of one mora's duration fields. -/
def moraNonneg (m : Mora) : Prop :=
  0 ≤ m.consonant_length.getD 0 ∧ 0 ≤ m.vowel_length.getD 0

/-- Non-negativity of a phrase's mora and pause durations. -/
def phraseNonneg (p : AccentPhrase) : Prop :=
  (∀ m ∈ p.moras.getD [], moraNonneg m) ∧
  (∀ pm, p.pause_mora = some (some pm) →
      0 ≤ pm.vowel_length.getD 0 ∧ 0 ≤ pm.consonant_length.getD 0)

/-- Divide a timeline sample's two times by `s` (character data kept). -/
def scaleCT (s : ℚ) (ct : CharTime) : CharTime :=
  { ct with start_time := ct.start_time / s, end_time := ct.end_time / s }

/-- Divide a timeline state's times by `s`. -/
def scaleTL (s : ℚ) (st : TLState) : TLState :=
  { char_times := st.char_times.map (scaleCT s),
    cur_time := st.cur_time / s,
    cur_pos := st.cur_pos }

/-- A one-segment scene: title `"a"` with phonetic text `"ア"`. -/
def exScene : SceneData :=
  { title := some "a", title_kana := some "ア", contents := none }

/-- A query giving the single character `"ア"` one second of voice and a
null pause mora, at default speed. -/
def exQuery : VoiceQuery :=
  { accent_phrases :=
      [ { moras := some [{ text := some "ア", consonant_length := none, vowel_length := some 1 }],
          pause_mora := some none } ],
    speedScale := none }

/-- A well-formed one-segment unit: its only segment spans `[0, 1]`. -/
def exUnit : SceneInput := { query := some exQuery, scene := exScene }

/-- A scene whose phonetic text `"アイ"` does not match
`mismatchQuery`'s timeline (which voices `"アウ"`). -/
def mismatchScene : SceneData :=
  { title := some "b", title_kana := some "アイ", contents := none }

/-- A query voicing `"アウ"`: its final sample fails the boundary-suffix
assert against a segment whose phonetic text is `"アイ"`. -/
def mismatchQuery : VoiceQuery :=
  { accent_phrases :=
      [ { moras := some
            [ { text := some "ア", consonant_length := none, vowel_length := some 1 },
              { text := some "ウ", consonant_length := none, vowel_length := some 1 } ],
          pause_mora := some none } ],
    speedScale := none }

/-- A unit whose only segment fails the boundary-character check. -/
def mismatchUnit : SceneInput := { query := some mismatchQuery, scene := mismatchScene }

/-- A two-phrase query whose first phrase carries a real pause mora
(vowel 1.1 s): the legacy and refactored resolvers time its second
segment differently. -/
def pauseQuery : VoiceQuery :=
  { accent_phrases :=
      [ { moras := some [{ text := some "ア", consonant_length := none, vowel_length := some 1 }],
          pause_mora := some (some { vowel_length := some (11/10), consonant_length := some 0 }) },
        { moras := some [{ text := some "イ", consonant_length := none, vowel_length := some 1 }],
          pause_mora := some none } ],
    speedScale := none }

/-- The two segments voiced by `pauseQuery`. -/
def pauseSegs : List SegIn :=
  [ { text := "a", kana_text := "ア", type := "kana" },
    { text := "b", kana_text := "イ", type := "kana" } ]

/-- A query whose only phrase lacks the `"pause_mora"` key entirely. -/
def missingKeyQuery : VoiceQuery :=
  { accent_phrases :=
      [ { moras := some [{ text := some "ア", consonant_length := none, vowel_length := some 1 }],
          pause_mora := none } ],
    speedScale := none }

/-- A unit whose query raises `KeyError` while building the timeline. -/
def missingKeyUnit : SceneInput := { query := some missingKeyQuery, scene := exScene }

/-! ## Theorems -/

/-- Helper: the reverse end-time scan returns its default when every
sample fails the `char_pos < end_pos` test. -/
theorem findEndRev_all_skip (cur_time : ℚ) (sp : SegPos) :
    ∀ l : List CharTime, (∀ c ∈ l, ¬ c.char_pos < sp.end_pos) →
    findEndRev cur_time sp l = .ok cur_time := by
  intro l h
  induction l with
  | nil => rfl
  | cons ct rest ih =>
    simp only [findEndRev]
    rw [if_neg (h ct (List.mem_cons_self ct rest))]
    exact ih fun c hc => h c (List.mem_cons_of_mem ct hc)

/-- C7: if no sample has `char_position >= start_pos` the segment's
start time defaults to `0.0`, and if no sample has
`char_position < end_pos` its end time defaults to the unit's total
elapsed time. -/
theorem c7_resolver_defaults :
    (∀ (sp : SegPos) (char_times : List CharTime),
        (∀ ct ∈ char_times, ct.char_pos < sp.start_pos) →
        findStartTime sp char_times = .ok 0)
  ∧ (∀ (cur_time : ℚ) (sp : SegPos) (char_times : List CharTime),
        (∀ ct ∈ char_times, ¬ ct.char_pos < sp.end_pos) →
        findEndTime cur_time sp char_times = .ok cur_time) := by
  constructor
  · intro sp char_times h
    induction char_times with
    | nil => rfl
    | cons ct rest ih =>
      have hct := h ct (List.mem_cons_self ct rest)
      simp only [findStartTime]
      rw [if_neg (by omega)]
      exact ih fun c hc => h c (List.mem_cons_of_mem ct hc)
  · intro cur_time sp char_times h
    exact findEndRev_all_skip cur_time sp char_times.reverse
      fun c hc => h c (List.mem_reverse.mp hc)

/-- Witness for C7 at a concrete sample list: the sample at character
position 1 satisfies neither rule for a segment located at
`start_pos = 2`, `end_pos = 1`. -/
theorem c7_resolver_defaults_witness :
    findStartTime
        { segment := { text := "t", kana_text := "k", type := "kana" },
          start_pos := 2, end_pos := 1, start_chars := "k", end_chars := "k" }
        [{ char := "x", char_pos := 1, start_time := 3, end_time := 4 }] = .ok 0
  ∧ findEndTime 5
        { segment := { text := "t", kana_text := "k", type := "kana" },
          start_pos := 2, end_pos := 1, start_chars := "k", end_chars := "k" }
        [{ char := "x", char_pos := 1, start_time := 3, end_time := 4 }] = .ok 5 :=
  ⟨c7_resolver_defaults.1 _ _ (by decide), c7_resolver_defaults.2 5 _ _ (by decide)⟩

/-- C5: a phrase's non-null pause mora adds
`(vowel_length + consonant_length) / 1.1` — damped by the fixed constant
`11/10`, not by `speed_scale` — to elapsed time only (no sample, no
cursor move), while a regular advancing mora's duration is
`(consonant_length + vowel_length) / speed_scale`. -/
theorem c5_pause_damping :
    (∀ (speed_scale : ℚ) (st : TLState) (phrase : AccentPhrase) (pause : PauseMora),
        phrase.pause_mora = some (some pause) →
        phraseStep speed_scale st phrase =
          .ok { (phrase.moras.getD []).foldl (moraStep speed_scale) st with
                cur_time := ((phrase.moras.getD []).foldl (moraStep speed_scale) st).cur_time
                  + (pause.vowel_length.getD 0 + pause.consonant_length.getD 0) / (11/10 : ℚ) })
  ∧ (∀ (speed_scale : ℚ) (st : TLState) (mora : Mora) (ch : String),
        mora.text = some ch → ch ∉ pauseMarkers →
        moraStep speed_scale st mora =
          { char_times := st.char_times ++
              [{ char := ch, char_pos := st.cur_pos, start_time := st.cur_time,
                 end_time := st.cur_time +
                   (mora.consonant_length.getD 0 + mora.vowel_length.getD 0) / speed_scale }],
            cur_time := st.cur_time +
              (mora.consonant_length.getD 0 + mora.vowel_length.getD 0) / speed_scale,
            cur_pos := st.cur_pos + ch.length }) := by
  constructor
  · intro speed_scale st phrase pause h
    simp only [phraseStep, h]
  · intro speed_scale st mora ch hch hmem
    simp only [moraStep, hch]
    rw [if_neg hmem]
    simp only [div_add_div_same]

/-- Witness for C5: the pause of `pauseQuery`'s first phrase, damped by
`11/10` (not by the speed scale `2`), and a regular mora at speed 2. -/
theorem c5_pause_damping_witness :
    phraseStep 2 { char_times := [], cur_time := 0, cur_pos := 0 }
        { moras := some [{ text := some "ア", consonant_length := none, vowel_length := some 1 }],
          pause_mora := some (some { vowel_length := some (11/10), consonant_length := some 0 }) } =
      .ok { char_times := [{ char := "ア", char_pos := 0, start_time := 0, end_time := 1/2 }],
            cur_time := 3/2, cur_pos := 1 }
  ∧ moraStep 2 { char_times := [], cur_time := 0, cur_pos := 0 }
        { text := some "ア", consonant_length := none, vowel_length := some 1 } =
      { char_times := [{ char := "ア", char_pos := 0, start_time := 0, end_time := 1/2 }],
        cur_time := 1/2, cur_pos := 1 } := by
  constructor
  · exact (c5_pause_damping.1 2 _ _ _ rfl).trans (by decide)
  · exact (c5_pause_damping.2 2 _ _ "ア" rfl (by decide)).trans (by decide)

/-- C6 (amended): it is the upstream extraction step
`extract_segments_from_scene` — not the Segment Locator itself — that
drops segments with empty phonetic text: every segment it produces (and
hence every segment list the pipeline hands to the locator) has a
non-empty `kana_text`. -/
theorem c6_extract_drops_empty :
    ∀ (scene_data : SceneData) (s : SegIn),
      s ∈ extract_segments_from_scene scene_data → s.kana_text ≠ "" := by
  intro sc s hs
  unfold extract_segments_from_scene at hs
  simp only [List.mem_append] at hs
  rcases hs with h | h
  · by_cases ht : (match sc.title_kana with | some t => pyStrip t | none => "") = ""
    · rw [if_pos ht] at h
      exact absurd h (List.not_mem_nil s)
    · rw [if_neg ht] at h
      rcases List.mem_singleton.mp h with rfl
      exact ht
  · rcases List.mem_flatMap.mp h with ⟨content, _, hmem⟩
    cases hk : content.texts_kana with
    | none =>
      rw [hk] at hmem
      exact absurd hmem (List.not_mem_nil s)
    | some kana_list =>
      rw [hk] at hmem
      rcases List.mem_filterMap.mp hmem with ⟨ik, _, hik⟩
      by_cases he : pyStrip ik.2 = ""
      · rw [if_pos he] at hik
        exact absurd hik (by simp)
      · rw [if_neg he] at hik
        have := Option.some.inj hik
        rw [← this]
        exact he

/-- C6 counterexample: the Segment Locator itself does not drop a
segment with empty phonetic text — given one directly,
`analyze_voice_query_timing` still emits a TimedSegment for it (with
empty `kana_text`), contradicting "such segments produce no TimedSegment
in the output". -/
theorem c6_locator_keeps_empty_counterexample :
    analyze_voice_query_timing { accent_phrases := [], speedScale := none }
        [{ text := "x", kana_text := "", type := "kana" }] =
      .ok [{ index := 1, start_time := 0, end_time := 0, text := "x",
             kana_text := "", segment_type := "kana" }] := by decide

/-- Witness for C6: the one segment extracted from `exScene` has the
non-empty phonetic text `"ア"`. -/
theorem c6_extract_drops_empty_witness :
    ({ text := "a", kana_text := "ア", type := "title-kana" } : SegIn) ∈
      extract_segments_from_scene exScene
  ∧ ({ text := "a", kana_text := "ア", type := "title-kana" } : SegIn).kana_text ≠ "" :=
  ⟨by decide, c6_extract_drops_empty exScene _ (by decide)⟩

/-- C3 counterexample: the trimming only looks at the ASCII full stop,
so the display text `"こんにちは。"` (Japanese full stop U+3002) is
stored *unchanged* into its TimedSegment, not as `"こんにちは"`. -/
theorem c3_ascii_only_counterexample :
    analyze_voice_query_timing exQuery
        [{ text := "こんにちは。", kana_text := "ア", type := "kana" }] =
      .ok [{ index := 1, start_time := 0, end_time := 1, text := "こんにちは。",
             kana_text := "ア", segment_type := "kana" }]
  ∧ ("こんにちは。" : String) ≠ "こんにちは" := by decide

@[simp] theorem except_bind_ok {α β : Type} (a : α) (f : α → Except PyError β) :
    (Except.ok a >>= f) = f a := rfl

@[simp] theorem except_bind_error {α β : Type} (e : PyError) (f : α → Except PyError β) :
    ((Except.error e : Except PyError α) >>= f) = Except.error e := rfl

/-- Helper: the located positions list carries the input segments in
order. -/
theorem locStep_fold_map_segment :
    ∀ (segments : List SegIn) (acc : String × List SegPos),
      ((segments.foldl locStep acc).2).map SegPos.segment =
        acc.2.map SegPos.segment ++ segments := by
  intro segments
  induction segments with
  | nil => intro acc; simp
  | cons seg rest ih =>
    intro acc
    rw [List.foldl_cons, ih]
    simp [locStep]

/-- Helper: the resolver stores `stripPunct` of the segment's display
text into the TimedSegment it emits. -/
theorem resolveSegment_text {char_times : List CharTime} {cur_time : ℚ}
    {ip : Nat × SegPos} {r : SubtitleSegment} :
    resolveSegment char_times cur_time ip = .ok r →
    r.text = stripPunct ip.2.segment.text := by
  unfold resolveSegment
  cases h1 : findStartTime ip.2 char_times with
  | error e => simp [h1]
  | ok t =>
    cases h2 : findEndTime cur_time ip.2 char_times with
    | error e => simp [h1, h2]
    | ok t2 =>
      simp only [h1, h2, except_bind_ok]
      intro h
      cases h
      rfl

/-- Helper: a successful `mapM` run of the resolver relates located
segments and emitted TimedSegments pointwise. -/
theorem mapM_resolve_forall₂ (char_times : List CharTime) (cur_time : ℚ) :
    ∀ (sps : List SegPos) (k : Nat) (res : List SubtitleSegment),
      (List.enumFrom k sps).mapM (resolveSegment char_times cur_time) = .ok res →
      List.Forall₂ (fun sp (r : SubtitleSegment) => r.text = stripPunct sp.segment.text) sps res := by
  intro sps
  induction sps with
  | nil =>
    intro k res h
    rw [List.enumFrom_nil, List.mapM_nil] at h
    cases h
    exact List.Forall₂.nil
  | cons sp rest ih =>
    intro k res h
    rw [List.enumFrom_cons, List.mapM_cons] at h
    cases h1 : resolveSegment char_times cur_time (k, sp) with
    | error e => rw [h1] at h; simp at h
    | ok r =>
      rw [h1] at h
      cases h2 : (List.enumFrom (k + 1) rest).mapM (resolveSegment char_times cur_time) with
      | error e => rw [h2] at h; simp at h
      | ok rs =>
        rw [h2] at h
        simp only [except_bind_ok] at h
        cases h
        exact List.Forall₂.cons (resolveSegment_text h1) (ih (k + 1) rs h2)

/-- C3 (amended): before a TimedSegment is stored its display text
passes through `stripPunct`, which strips a single trailing *ASCII*
`"."` or `","` unless doubled; the Japanese `"。"` is not one of these
characters, so `"こんにちは。"` and `"わあ。。"` are both left
untouched. -/
theorem c3_trailing_punctuation :
    (∀ (query_data : VoiceQuery) (segments : List SegIn) (res : List SubtitleSegment),
        analyze_voice_query_timing query_data segments = .ok res →
        List.Forall₂ (fun (seg : SegIn) (r : SubtitleSegment) =>
          r.text = stripPunct seg.text) segments res)
  ∧ stripPunct "abc." = "abc" ∧ stripPunct "ab.." = "ab.."
  ∧ stripPunct "ab," = "ab" ∧ stripPunct "ab,," = "ab,,"
  ∧ stripPunct "こんにちは。" = "こんにちは。"
  ∧ stripPunct "わあ。。" = "わあ。。" := by
  refine ⟨?_, by decide, by decide, by decide, by decide, by decide, by decide⟩
  intro query_data segments res h
  simp only [analyze_voice_query_timing] at h
  cases hb : buildTimeline (refacSpeed query_data) query_data.accent_phrases with
  | error e => rw [hb] at h; simp at h
  | ok st =>
    rw [hb] at h
    simp only [except_bind_ok] at h
    have h2 := mapM_resolve_forall₂ st.char_times st.cur_time (locateSegments segments) 0 res h
    have hseg : (locateSegments segments).map SegPos.segment = segments := by
      unfold locateSegments
      rw [locStep_fold_map_segment]
      simp
    rw [← hseg]
    exact List.forall₂_map_left_iff.mpr h2

/-- Witness for C3: a concrete run through
`analyze_voice_query_timing` stores `"abc"` for the display text
`"abc."`. -/
theorem c3_trailing_punctuation_witness :
    List.Forall₂ (fun (seg : SegIn) (r : SubtitleSegment) => r.text = stripPunct seg.text)
      [{ text := "abc.", kana_text := "ア", type := "kana" }]
      [{ index := 1, start_time := 0, end_time := 1, text := "abc",
         kana_text := "ア", segment_type := "kana" }] :=
  c3_trailing_punctuation.1 exQuery _ _ (by decide)

/-- Helper: the last element of an offset-and-reindexed segment list. -/
theorem offsetSegments_concat_getLast? (o : ℚ) (b : Nat)
    (res0 : List SubtitleSegment) (lastSeg : SubtitleSegment) :
    (offsetSegments o b (res0 ++ [lastSeg])).getLast? =
      some { lastSeg with
             start_time := lastSeg.start_time + o,
             end_time := lastSeg.end_time + o,
             index := b + res0.length + 1 } := by
  unfold offsetSegments
  rw [List.enum_append]
  simp only [List.enumFrom_cons, List.enumFrom_nil, List.map_append, List.map_cons,
    List.map_nil, List.getLast?_concat] 

/-- C1 (amended): processing a unit that yields segments *advances* the
running offset by that unit's final local end time plus the silence gap
— equivalently, the offset is set to the unit's last *globally-offset*
end time plus the gap, not to the local end time plus the gap.
Scenario B holds: with unit 1's final local end time 1.0 and gap 0.5,
unit 2's first segment (local start 0.0) starts globally at 1.5. -/
theorem c1_offset_advance :
    (∀ (silence_duration offset : ℚ) (all_segments res0 : List SubtitleSegment)
        (lastSeg : SubtitleSegment) (sc : SceneInput) (q : VoiceQuery),
        sc.query = some q →
        extract_segments_from_scene sc.scene ≠ [] →
        analyze_voice_query_timing q (extract_segments_from_scene sc.scene) =
          .ok (res0 ++ [lastSeg]) →
        sceneStep silence_duration (all_segments, offset) sc =
          .ok (all_segments ++
                 offsetSegments offset all_segments.length (res0 ++ [lastSeg]),
               lastSeg.end_time + offset + silence_duration)
        ∧ lastSeg.end_time + offset + silence_duration
            = offset + (lastSeg.end_time + silence_duration))
  ∧ generate_combined_subtitles [exUnit, exUnit] (1/2) =
      .ok (some
        [{ index := 1, start_time := 0, end_time := 3/2, text := "a",
           kana_text := "ア", segment_type := "title-kana" },
         { index := 2, start_time := 3/2, end_time := 5/2, text := "a",
           kana_text := "ア", segment_type := "title-kana" }]) := by
  constructor
  · intro silence_duration offset all_segments res0 lastSeg sc q hq hne hana
    constructor
    · simp only [sceneStep, hq, hana, offsetSegments_concat_getLast?]
      rw [if_neg (by simp [List.isEmpty_iff, hne])]
    · ring
  · decide

/-- C1 counterexample: with three copies of a unit whose single segment
spans `[0, 1]` locally and gap `0.5`, unit 3's first segment (local
start `0`) gets global start time `3` — the offset applied to unit 3 is
unit 2's globally-offset end time `2.5` plus the gap — and not
`1 + 0.5 = 1.5` as the claim's "offset is set to that unit's last
segment's end time in the unit's local frame plus silence_gap"
states. -/
theorem c1_offset_advance_counterexample :
    generate_combined_subtitles [exUnit, exUnit, exUnit] (1/2) =
      .ok (some
        [{ index := 1, start_time := 0, end_time := 3/2, text := "a",
           kana_text := "ア", segment_type := "title-kana" },
         { index := 2, start_time := 3/2, end_time := 3, text := "a",
           kana_text := "ア", segment_type := "title-kana" },
         { index := 3, start_time := 3, end_time := 4, text := "a",
           kana_text := "ア", segment_type := "title-kana" }])
  ∧ (3 : ℚ) ≠ 1 + 1/2 := by
  constructor
  · decide
  · decide

/-- Witness for C1: processing `exUnit` from offset `0` appends its
segment and advances the offset to `1 + 0.5 = 1.5`. -/
theorem c1_offset_advance_witness :
    sceneStep (1/2) ([], 0) exUnit =
      .ok ([{ index := 1, start_time := 0, end_time := 1, text := "a",
              kana_text := "ア", segment_type := "title-kana" }], 3/2) := by
  have h := (c1_offset_advance.1 (1/2) 0 [] []
    { index := 1, start_time := 0, end_time := 1, text := "a",
      kana_text := "ア", segment_type := "title-kana" }
    exUnit exQuery rfl (by decide) (by decide)).1
  exact h.trans (by decide)

/-- Helper: the start-time scan raises the boundary assert when the
first sample at or past `start_pos` does not match the boundary
prefix. -/
theorem findStartTime_mismatch (sp : SegPos) :
    ∀ (skipped : List CharTime) (ct : CharTime) (rest : List CharTime),
      (∀ c ∈ skipped, c.char_pos < sp.start_pos) →
      sp.start_pos ≤ ct.char_pos →
      ct.char ≠ sp.start_chars.take ct.char.length →
      findStartTime sp (skipped ++ ct :: rest) = .error .assertionError := by
  intro skipped
  induction skipped with
  | nil =>
    intro ct rest _ hge hne
    simp only [List.nil_append, findStartTime]
    rw [if_pos hge, if_neg hne]
  | cons c cs ih =>
    intro ct rest h hge hne
    have hc := h c (List.mem_cons_self c cs)
    simp only [List.cons_append, findStartTime]
    rw [if_neg (by omega)]
    exact ih ct rest (fun x hx => h x (List.mem_cons_of_mem c hx)) hge hne

/-- Helper: the reversed end-time scan raises the boundary assert when
the first sample (from the end) before `end_pos` does not match the
boundary suffix tail. -/
theorem findEndRev_mismatch (cur_time : ℚ) (sp : SegPos) :
    ∀ (skipped : List CharTime) (ct : CharTime) (rest : List CharTime),
      (∀ c ∈ skipped, ¬ c.char_pos < sp.end_pos) →
      ct.char_pos < sp.end_pos →
      ct.char ≠ pySliceLast sp.end_chars ct.char.length →
      findEndRev cur_time sp (skipped ++ ct :: rest) = .error .assertionError := by
  intro skipped
  induction skipped with
  | nil =>
    intro ct rest _ hlt hne
    simp only [List.nil_append, findEndRev]
    rw [if_pos hlt, if_neg hne]
  | cons c cs ih =>
    intro ct rest h hlt hne
    have hc := h c (List.mem_cons_self c cs)
    simp only [List.cons_append, findEndRev]
    rw [if_neg hc]
    exact ih ct rest (fun x hx => h x (List.mem_cons_of_mem c hx)) hlt hne

/-- Helper: a unit whose timing analysis raises the boundary assert is
skipped: the stitcher's per-scene step leaves its state untouched. -/
theorem sceneStep_skips_assert (silence_duration : ℚ) (sc : SceneInput) (q : VoiceQuery)
    (hq : sc.query = some q)
    (ha : analyze_voice_query_timing q (extract_segments_from_scene sc.scene) =
      .error .assertionError) :
    ∀ st, sceneStep silence_duration st sc = .ok st := by
  intro st
  simp only [sceneStep, hq, ha, ite_self]

/-- Helper: a scene every step of which returns the state unchanged can
be removed from the stitcher's fold. -/
theorem foldlM_drop_skipped (silence_duration : ℚ) (sc : SceneInput)
    (hskip : ∀ st, sceneStep silence_duration st sc = .ok st) :
    ∀ (scenes_before scenes_after : List SceneInput) (init : List SubtitleSegment × ℚ),
      (scenes_before ++ sc :: scenes_after).foldlM (sceneStep silence_duration) init =
        (scenes_before ++ scenes_after).foldlM (sceneStep silence_duration) init := by
  intro scenes_before
  induction scenes_before with
  | nil =>
    intro scenes_after init
    simp only [List.nil_append, List.foldlM_cons, hskip, except_bind_ok]
  | cons a l ih =>
    intro scenes_after init
    simp only [List.cons_append, List.foldlM_cons]
    cases hstep : sceneStep silence_duration init a with
    | error e => simp only [hstep, except_bind_error]
    | ok st' =>
      simp only [hstep, except_bind_ok]
      exact ih scenes_after st'

/-- C2: a segment whose located boundary character does not match the
timeline sample at the expected position (start-prefix check, or
end-suffix check on the tail trimmed to the sample character's length)
makes the engine raise the alignment assertion, and a unit whose
analysis raises it is skipped while every other unit is processed
exactly as if the failing unit were absent. -/
theorem c2_alignment_isolation :
    (∀ (sp : SegPos) (skipped : List CharTime) (ct : CharTime) (rest : List CharTime),
        (∀ c ∈ skipped, c.char_pos < sp.start_pos) →
        sp.start_pos ≤ ct.char_pos →
        ct.char ≠ sp.start_chars.take ct.char.length →
        findStartTime sp (skipped ++ ct :: rest) = .error .assertionError)
  ∧ (∀ (cur_time : ℚ) (sp : SegPos) (front : List CharTime) (ct : CharTime)
        (tail : List CharTime),
        (∀ c ∈ tail, ¬ c.char_pos < sp.end_pos) →
        ct.char_pos < sp.end_pos →
        ct.char ≠ pySliceLast sp.end_chars ct.char.length →
        findEndTime cur_time sp (front ++ ct :: tail) = .error .assertionError)
  ∧ (∀ (silence_duration : ℚ) (scenes_before scenes_after : List SceneInput)
        (sc : SceneInput) (q : VoiceQuery),
        sc.query = some q →
        analyze_voice_query_timing q (extract_segments_from_scene sc.scene) =
          .error .assertionError →
        generate_combined_subtitles (scenes_before ++ sc :: scenes_after) silence_duration =
          generate_combined_subtitles (scenes_before ++ scenes_after) silence_duration) := by
  refine ⟨findStartTime_mismatch, ?_, ?_⟩
  · intro cur_time sp front ct tail htail hlt hne
    unfold findEndTime
    rw [List.reverse_append, List.reverse_cons, List.append_assoc, List.singleton_append]
    exact findEndRev_mismatch cur_time sp tail.reverse ct front.reverse
      (fun c hc => htail c (List.mem_reverse.mp hc)) hlt hne
  · intro silence_duration scenes_before scenes_after sc q hq ha
    have hskip := sceneStep_skips_assert silence_duration sc q hq ha
    by_cases hpp : scenes_before ++ scenes_after = []
    · rcases List.append_eq_nil.mp hpp with ⟨rfl, rfl⟩
      simp only [List.nil_append, generate_combined_subtitles, List.foldlM_cons,
        List.foldlM_nil, hskip, except_bind_ok, List.isEmpty_cons, List.isEmpty_nil]
      rfl
    · unfold generate_combined_subtitles
      rw [foldlM_drop_skipped silence_duration sc hskip scenes_before scenes_after ([], 0)]
      rw [if_neg (by simp [List.isEmpty_iff]), if_neg (by simp [List.isEmpty_iff, hpp])]

/-- Witness for C2: `mismatchUnit`'s only segment fails the end-suffix
assert (sample `"ウ"` against boundary suffix tail `"イ"`), the unit is
skipped, and the run still surfaces the other unit's segment. -/
theorem c2_alignment_isolation_witness :
    findStartTime
        { segment := { text := "b", kana_text := "アイ", type := "kana" },
          start_pos := 0, end_pos := 2, start_chars := "イ", end_chars := "アイ" }
        [{ char := "ア", char_pos := 0, start_time := 0, end_time := 1 }] =
      .error .assertionError
  ∧ analyze_voice_query_timing mismatchQuery (extract_segments_from_scene mismatchScene) =
      .error .assertionError
  ∧ generate_combined_subtitles [exUnit, mismatchUnit] (1/2) =
      generate_combined_subtitles [exUnit] (1/2)
  ∧ generate_combined_subtitles [exUnit, mismatchUnit] (1/2) =
      .ok (some [{ index := 1, start_time := 0, end_time := 1, text := "a",
                   kana_text := "ア", segment_type := "title-kana" }]) :=
  ⟨c2_alignment_isolation.1 _ [] _ [] (by decide) (by decide) (by decide),
   by decide,
   c2_alignment_isolation.2.2 (1/2) [exUnit] [] mismatchUnit mismatchQuery rfl (by decide),
   by decide⟩

/-- Helper: `gapClose` of a non-empty list starts with the first input
segment, its start unchanged and its end never shrunk. -/
theorem gapClose_cons_head :
    ∀ (t : SubtitleSegment) (rest : List SubtitleSegment),
      ∃ t' r', gapClose (t :: rest) = t' :: r' ∧ t'.start_time = t.start_time ∧
        t.end_time ≤ t'.end_time := by
  intro t rest
  cases rest with
  | nil => exact ⟨t, [], rfl, rfl, le_refl _⟩
  | cons u r =>
    by_cases h : t.end_time < u.start_time
    · exact ⟨{ t with end_time := u.start_time }, gapClose (u :: r),
        by rw [gapClose, if_pos h], rfl, le_of_lt h⟩
    · exact ⟨t, gapClose (u :: r), by rw [gapClose, if_neg h], rfl, le_refl _⟩

/-- Helper: the gap-closing pass keeps every start time and never
shrinks an end time. -/
theorem gapClose_forall₂ :
    ∀ l : List SubtitleSegment,
      List.Forall₂ (fun s s' => s'.start_time = s.start_time ∧ s.end_time ≤ s'.end_time)
        l (gapClose l) := by
  intro l
  induction l with
  | nil => exact List.Forall₂.nil
  | cons s rest ih =>
    cases rest with
    | nil => exact List.Forall₂.cons ⟨rfl, le_refl _⟩ List.Forall₂.nil
    | cons t r =>
      rw [gapClose]
      refine List.Forall₂.cons ?_ ih
      by_cases h : s.end_time < t.start_time
      · rw [if_pos h]
        exact ⟨rfl, le_of_lt h⟩
      · rw [if_neg h]
        exact ⟨rfl, le_refl _⟩

/-- Helper: after the gap-closing pass, every segment's end time
reaches the next segment's start time. -/
theorem gapClose_no_gap :
    ∀ l : List SubtitleSegment,
      List.Chain' (fun a b => b.start_time ≤ a.end_time) (gapClose l) := by
  intro l
  induction l with
  | nil => exact List.chain'_nil
  | cons s rest ih =>
    cases rest with
    | nil => exact List.chain'_singleton s
    | cons t r =>
      rw [gapClose]
      rcases gapClose_cons_head t r with ⟨t', r', heq, hstart, _⟩
      rw [heq]
      rw [heq] at ih
      refine List.chain'_cons.mpr ⟨?_, ih⟩
      rw [hstart]
      by_cases h : s.end_time < t.start_time
      · rw [if_pos h]
      · rw [if_neg h]
        exact le_of_not_lt h

/-- Helper: a pair separated by a gap before the pass is made exactly
adjacent by it. -/
theorem gapClose_exact_adjacency :
    ∀ l : List SubtitleSegment,
      List.Chain' (fun p q => p.1.end_time < q.1.start_time → p.2.end_time = q.1.start_time)
        (l.zip (gapClose l)) := by
  intro l
  induction l with
  | nil => exact List.chain'_nil
  | cons s rest ih =>
    cases rest with
    | nil => exact List.chain'_singleton _
    | cons t r =>
      rw [gapClose]
      rcases gapClose_cons_head t r with ⟨t', r', heq, _, _⟩
      rw [heq]
      rw [heq] at ih
      rw [List.zip_cons_cons]
      refine List.chain'_cons.mpr ⟨?_, ?_⟩
      · intro hgap
        rw [if_pos hgap]
      · exact ih

/-- Helper: when every input segment is well-formed
(`start_time ≤ end_time`), so is every output segment of the pass. -/
theorem gapClose_wellformed :
    ∀ l : List SubtitleSegment, (∀ s ∈ l, s.start_time ≤ s.end_time) →
      ∀ s' ∈ gapClose l, s'.start_time ≤ s'.end_time := by
  intro l
  induction l with
  | nil => intro _ s' hs'; exact absurd hs' (List.not_mem_nil s')
  | cons s rest ih =>
    cases rest with
    | nil =>
      intro h s' hs'
      rcases List.mem_singleton.mp hs' with rfl
      exact h s' (List.mem_singleton.mpr rfl)
    | cons t r =>
      intro h s' hs'
      rw [gapClose] at hs'
      by_cases hg : s.end_time < t.start_time
      · rw [if_pos hg] at hs'
        rcases List.mem_cons.mp hs' with rfl | hmem
        · exact le_of_lt (lt_of_le_of_lt (h s (List.mem_cons_self s _)) hg)
        · exact ih (fun x hx => h x (List.mem_cons_of_mem s hx)) s' hmem
      · rw [if_neg hg] at hs'
        rcases List.mem_cons.mp hs' with rfl | hmem
        · exact h s' (List.mem_cons_self s' _)
        · exact ih (fun x hx => h x (List.mem_cons_of_mem s hx)) s' hmem

/-- C8: after the single forward gap-closing pass, every segment is
still well-formed (given well-formed inputs), every adjacent pair
satisfies `next.start_time ≤ prev.end_time` (no blank gap), start times
are unchanged, end times never shrink, and a pair separated by a gap
before the pass is made exactly adjacent. -/
theorem c8_gap_closing_pass (l : List SubtitleSegment)
    (hws : ∀ s ∈ l, s.start_time ≤ s.end_time) :
    (∀ s' ∈ gapClose l, s'.start_time ≤ s'.end_time)
  ∧ List.Chain' (fun a b => b.start_time ≤ a.end_time) (gapClose l)
  ∧ List.Forall₂ (fun s s' => s'.start_time = s.start_time ∧ s.end_time ≤ s'.end_time)
      l (gapClose l)
  ∧ List.Chain' (fun p q => p.1.end_time < q.1.start_time → p.2.end_time = q.1.start_time)
      (l.zip (gapClose l)) :=
  ⟨gapClose_wellformed l hws, gapClose_no_gap l, gapClose_forall₂ l,
   gapClose_exact_adjacency l⟩

/-- Witness for C8 at a concrete two-segment list with a gap of `0.5`:
the pass extends the first end time to `1.5` exactly. -/
theorem c8_gap_closing_pass_witness :
    (∀ s' ∈ gapClose
        [{ index := 1, start_time := 0, end_time := 1, text := "a",
           kana_text := "ア", segment_type := "kana" },
         { index := 2, start_time := 3/2, end_time := 5/2, text := "b",
           kana_text := "イ", segment_type := "kana" }],
        s'.start_time ≤ s'.end_time)
  ∧ List.Chain' (fun a b => b.start_time ≤ a.end_time)
      (gapClose
        [{ index := 1, start_time := 0, end_time := 1, text := "a",
           kana_text := "ア", segment_type := "kana" },
         { index := 2, start_time := 3/2, end_time := 5/2, text := "b",
           kana_text := "イ", segment_type := "kana" }])
  ∧ List.Forall₂ (fun (s s' : SubtitleSegment) =>
        s'.start_time = s.start_time ∧ s.end_time ≤ s'.end_time)
      [{ index := 1, start_time := 0, end_time := 1, text := "a",
         kana_text := "ア", segment_type := "kana" },
       { index := 2, start_time := 3/2, end_time := 5/2, text := "b",
         kana_text := "イ", segment_type := "kana" }]
      (gapClose
        [{ index := 1, start_time := 0, end_time := 1, text := "a",
           kana_text := "ア", segment_type := "kana" },
         { index := 2, start_time := 3/2, end_time := 5/2, text := "b",
           kana_text := "イ", segment_type := "kana" }])
  ∧ List.Chain' (fun (p q : SubtitleSegment × SubtitleSegment) =>
        p.1.end_time < q.1.start_time → p.2.end_time = q.1.start_time)
      ([{ index := 1, start_time := 0, end_time := 1, text := "a",
          kana_text := "ア", segment_type := "kana" },
        { index := 2, start_time := 3/2, end_time := 5/2, text := "b",
          kana_text := "イ", segment_type := "kana" }].zip
        (gapClose
          [{ index := 1, start_time := 0, end_time := 1, text := "a",
             kana_text := "ア", segment_type := "kana" },
           { index := 2, start_time := 3/2, end_time := 5/2, text := "b",
             kana_text := "イ", segment_type := "kana" }])) :=
  c8_gap_closing_pass _ (by decide)

/-- Helper: a phrase whose `pause_mora` key is present (null or not)
never fails the phrase step. -/
theorem phraseStep_ok_of_key (speed_scale : ℚ) (st : TLState) (p : AccentPhrase)
    (x : Option PauseMora) (hp : p.pause_mora = some x) :
    ∃ st1, phraseStep speed_scale st p = .ok st1 := by
  cases x with
  | none =>
    exact ⟨(p.moras.getD []).foldl (moraStep speed_scale) st, by simp [phraseStep, hp]⟩
  | some pause =>
    exact ⟨{ (p.moras.getD []).foldl (moraStep speed_scale) st with
             cur_time := ((p.moras.getD []).foldl (moraStep speed_scale) st).cur_time
               + (pause.vowel_length.getD 0 + pause.consonant_length.getD 0) / (11/10 : ℚ) },
           by simp [phraseStep, hp]⟩

/-- Helper: the timeline fold raises `KeyError` as soon as some phrase
lacks the `pause_mora` key. -/
theorem timeline_fold_keyError (speed_scale : ℚ) :
    ∀ (phrases : List AccentPhrase) (st : TLState),
      (∃ p ∈ phrases, p.pause_mora = none) →
      phrases.foldlM (phraseStep speed_scale) st = .error .keyError := by
  intro phrases
  induction phrases with
  | nil =>
    intro st h
    rcases h with ⟨p, hp, _⟩
    exact absurd hp (List.not_mem_nil p)
  | cons p rest ih =>
    intro st h
    rw [List.foldlM_cons]
    cases hp : p.pause_mora with
    | none =>
      have hstep : phraseStep speed_scale st p = .error .keyError := by
        simp [phraseStep, hp]
      rw [hstep, except_bind_error]
    | some x =>
      rcases phraseStep_ok_of_key speed_scale st p x hp with ⟨st1, hst1⟩
      rw [hst1, except_bind_ok]
      rcases h with ⟨pp, hpp, hnone⟩
      rcases List.mem_cons.mp hpp with rfl | hmem
      · rw [hp] at hnone
        cases hnone
      · exact ih st1 ⟨pp, hmem, hnone⟩

/-- Helper: the timeline fold succeeds when every phrase carries the
`pause_mora` key (its value may be null). -/
theorem timeline_fold_ok (speed_scale : ℚ) :
    ∀ (phrases : List AccentPhrase) (st : TLState),
      (∀ p ∈ phrases, p.pause_mora ≠ none) →
      ∃ st', phrases.foldlM (phraseStep speed_scale) st = .ok st' := by
  intro phrases
  induction phrases with
  | nil => intro st _; exact ⟨st, rfl⟩
  | cons p rest ih =>
    intro st h
    rw [List.foldlM_cons]
    cases hp : p.pause_mora with
    | none => exact absurd hp (h p (List.mem_cons_self p rest))
    | some x =>
      rcases phraseStep_ok_of_key speed_scale st p x hp with ⟨st1, hst1⟩
      rw [hst1, except_bind_ok]
      exact ih st1 fun y hy => h y (List.mem_cons_of_mem p hy)

/-- Helper: the start-time scan only ever raises the alignment
assertion. -/
theorem findStartTime_error_eq (sp : SegPos) :
    ∀ (char_times : List CharTime) (e : PyError),
      findStartTime sp char_times = .error e → e = .assertionError := by
  intro char_times
  induction char_times with
  | nil => intro e h; cases h
  | cons ct rest ih =>
    intro e h
    rw [findStartTime] at h
    by_cases h1 : sp.start_pos ≤ ct.char_pos
    · rw [if_pos h1] at h
      by_cases h2 : ct.char = sp.start_chars.take ct.char.length
      · rw [if_pos h2] at h; cases h
      · rw [if_neg h2] at h; cases h; rfl
    · rw [if_neg h1] at h
      exact ih e h

/-- Helper: the end-time scan only ever raises the alignment
assertion. -/
theorem findEndRev_error_eq (cur_time : ℚ) (sp : SegPos) :
    ∀ (char_times : List CharTime) (e : PyError),
      findEndRev cur_time sp char_times = .error e → e = .assertionError := by
  intro char_times
  induction char_times with
  | nil => intro e h; cases h
  | cons ct rest ih =>
    intro e h
    rw [findEndRev] at h
    by_cases h1 : ct.char_pos < sp.end_pos
    · rw [if_pos h1] at h
      by_cases h2 : ct.char = pySliceLast sp.end_chars ct.char.length
      · rw [if_pos h2] at h; cases h
      · rw [if_neg h2] at h; cases h; rfl
    · rw [if_neg h1] at h
      exact ih e h

/-- Helper: the per-segment resolver only ever raises the alignment
assertion. -/
theorem resolveSegment_error_eq (char_times : List CharTime) (cur_time : ℚ)
    (ip : Nat × SegPos) (e : PyError) :
    resolveSegment char_times cur_time ip = .error e → e = .assertionError := by
  unfold resolveSegment
  cases h1 : findStartTime ip.2 char_times with
  | error e1 =>
    simp only [h1, except_bind_error]
    intro h
    cases h
    exact findStartTime_error_eq ip.2 char_times e h1
  | ok t =>
    simp only [h1, except_bind_ok]
    cases h2 : findEndTime cur_time ip.2 char_times with
    | error e2 =>
      simp only [h2, except_bind_error]
      intro h
      cases h
      exact findEndRev_error_eq cur_time ip.2 char_times.reverse e h2
    | ok t2 =>
      simp only [h2, except_bind_ok]
      intro h
      cases h

/-- Helper: a resolver `mapM` run only ever raises the alignment
assertion. -/
theorem mapM_resolve_error_eq (char_times : List CharTime) (cur_time : ℚ) :
    ∀ (ips : List (Nat × SegPos)) (e : PyError),
      ips.mapM (resolveSegment char_times cur_time) = .error e → e = .assertionError := by
  intro ips
  induction ips with
  | nil => intro e h; cases h
  | cons ip rest ih =>
    intro e h
    rw [List.mapM_cons] at h
    cases h1 : resolveSegment char_times cur_time ip with
    | error e1 =>
      rw [h1, except_bind_error] at h
      cases h
      exact resolveSegment_error_eq char_times cur_time ip e h1
    | ok r =>
      rw [h1, except_bind_ok] at h
      cases h2 : rest.mapM (resolveSegment char_times cur_time) with
      | error e2 =>
        rw [h2, except_bind_error] at h
        cases h
        exact ih e h2
      | ok rs =>
        rw [h2, except_bind_ok] at h
        cases h

/-- Helper: the only exception the stitcher's per-scene step lets
escape is `KeyError` — `AssertionError` and `SubtitleGenerationError`
are caught and turn into a skip. -/
theorem sceneStep_error_eq (silence_duration : ℚ) (st : List SubtitleSegment × ℚ)
    (sc : SceneInput) (e : PyError) :
    sceneStep silence_duration st sc = .error e → e = .keyError := by
  unfold sceneStep
  by_cases hne : (extract_segments_from_scene sc.scene).isEmpty
  · rw [if_pos hne]
    intro h
    cases h
  · rw [if_neg hne]
    cases hm : (match sc.query with
                | none => Except.error PyError.subtitleGenerationError
                | some q =>
                  analyze_voice_query_timing q (extract_segments_from_scene sc.scene)) with
    | error pe =>
      cases pe with
      | assertionError => intro h; cases h
      | keyError => intro h; cases h; rfl
      | subtitleGenerationError => intro h; cases h
    | ok scene_segments =>
      intro h
      split at h
      · exact (Except.error.inj h).symm
      · exact Except.noConfusion h
      · exact Except.noConfusion h
      · dsimp only [] at h
        split at h
        · exact Except.noConfusion h
        · exact Except.noConfusion h

/-- Helper: a unit whose query lacks a `pause_mora` key and that has
segments makes the per-scene step itself raise `KeyError`. -/
theorem sceneStep_keyError (silence_duration : ℚ) (sc : SceneInput) (q : VoiceQuery)
    (hq : sc.query = some q)
    (hkey : ∃ p ∈ q.accent_phrases, p.pause_mora = none)
    (hne : extract_segments_from_scene sc.scene ≠ []) :
    ∀ st, sceneStep silence_duration st sc = .error .keyError := by
  have hana : analyze_voice_query_timing q (extract_segments_from_scene sc.scene) =
      .error .keyError := by
    simp only [analyze_voice_query_timing, buildTimeline,
      timeline_fold_keyError (refacSpeed q) q.accent_phrases _ hkey, except_bind_error]
  intro st
  simp only [sceneStep, hq, hana]
  rw [if_neg (by simp [List.isEmpty_iff, hne])]

/-- Helper: one `KeyError`-raising scene aborts the whole stitcher
fold, wherever it stands. -/
theorem foldlM_keyError_abort (silence_duration : ℚ) (sc : SceneInput)
    (habort : ∀ st, sceneStep silence_duration st sc = .error .keyError) :
    ∀ (scenes_before scenes_after : List SceneInput) (init : List SubtitleSegment × ℚ),
      (scenes_before ++ sc :: scenes_after).foldlM (sceneStep silence_duration) init =
        .error .keyError := by
  intro scenes_before
  induction scenes_before with
  | nil =>
    intro scenes_after init
    rw [List.nil_append, List.foldlM_cons, habort init, except_bind_error]
  | cons a l ih =>
    intro scenes_after init
    rw [List.cons_append, List.foldlM_cons]
    cases hstep : sceneStep silence_duration init a with
    | error e =>
      rw [except_bind_error]
      rw [sceneStep_error_eq silence_duration init a e hstep]
    | ok st' =>
      rw [except_bind_ok]
      exact ih scenes_after st'

/-- C10: the refactored resolver reads `phrase["pause_mora"]`
unconditionally, and the resulting `KeyError` is not caught by the
per-unit handler: one unit whose query has a phrase without the key
aborts the whole combined-subtitle run, while a query in which every
phrase carries the key (value possibly null) can never raise
`KeyError`. -/
theorem c10_missing_pause_key :
    (∀ (scenes_before scenes_after : List SceneInput) (sc : SceneInput) (q : VoiceQuery)
        (silence_duration : ℚ),
        sc.query = some q →
        (∃ p ∈ q.accent_phrases, p.pause_mora = none) →
        extract_segments_from_scene sc.scene ≠ [] →
        generate_combined_subtitles (scenes_before ++ sc :: scenes_after) silence_duration =
          .error .keyError)
  ∧ (∀ (query_data : VoiceQuery) (segments : List SegIn),
        (∀ p ∈ query_data.accent_phrases, p.pause_mora ≠ none) →
        analyze_voice_query_timing query_data segments ≠ .error .keyError) := by
  constructor
  · intro scenes_before scenes_after sc q silence_duration hq hkey hne
    have habort := sceneStep_keyError silence_duration sc q hq hkey hne
    unfold generate_combined_subtitles
    rw [if_neg (by simp [List.isEmpty_iff])]
    rw [foldlM_keyError_abort silence_duration sc habort scenes_before scenes_after ([], 0),
      except_bind_error]
  · intro query_data segments h
    rcases timeline_fold_ok (refacSpeed query_data) query_data.accent_phrases
      { char_times := [], cur_time := 0, cur_pos := 0 } h with ⟨st', hst'⟩
    simp only [analyze_voice_query_timing, buildTimeline, hst', except_bind_ok]
    intro hcon
    exact PyError.noConfusion
      (mapM_resolve_error_eq st'.char_times st'.cur_time (locateSegments segments).enum
        PyError.keyError hcon)

/-- Witness for C10: the one-unit run over `missingKeyUnit` aborts with
`KeyError`, while `exQuery` (null pause mora, key present) never raises
it. -/
theorem c10_missing_pause_key_witness :
    generate_combined_subtitles [missingKeyUnit] 1 = .error .keyError
  ∧ analyze_voice_query_timing exQuery
      [{ text := "a", kana_text := "ア", type := "kana" }] ≠ .error .keyError :=
  ⟨c10_missing_pause_key.1 [] [] missingKeyUnit missingKeyQuery 1 rfl
      ⟨{ moras := some [{ text := some "ア", consonant_length := none, vowel_length := some 1 }],
         pause_mora := none }, by decide, rfl⟩ (by decide),
   c10_missing_pause_key.2 exQuery _ (by decide)⟩

/-- Helper: the empty timeline state satisfies the builder's
invariant. -/
theorem tlGood_init : tlGood { char_times := [], cur_time := 0, cur_pos := 0 } :=
  ⟨fun ct hct => absurd hct (List.not_mem_nil ct),
   fun _ hl => Option.noConfusion hl,
   List.chain'_nil⟩

/-- Helper: one mora step preserves the timeline invariant when the
mora's durations are non-negative and the speed scale is positive. -/
theorem tlGood_moraStep (speed_scale : ℚ) (hsp : 0 < speed_scale)
    (st : TLState) (m : Mora) (hm : moraNonneg m) (hg : tlGood st) :
    tlGood (moraStep speed_scale st m) := by
  obtain ⟨hwf, hlast, hchain⟩ := hg
  cases hmt : m.text with
  | none => simpa [moraStep, hmt] using ⟨hwf, hlast, hchain⟩
  | some ch =>
    have hdur : 0 ≤ m.consonant_length.getD 0 / speed_scale
        + m.vowel_length.getD 0 / speed_scale :=
      add_nonneg (div_nonneg hm.1 (le_of_lt hsp)) (div_nonneg hm.2 (le_of_lt hsp))
    by_cases hmark : ch ∈ pauseMarkers
    · simp only [moraStep, hmt, if_pos hmark]
      exact ⟨fun ct hct => ⟨(hwf ct hct).1,
               le_trans (hwf ct hct).2 (le_add_of_nonneg_right hdur)⟩,
             hlast, hchain⟩
    · simp only [moraStep, hmt, if_neg hmark]
      refine ⟨?_, ?_, ?_⟩
      · intro ct hct
        rcases List.mem_append.mp hct with hmem | hb
        · exact ⟨(hwf ct hmem).1,
            le_trans (hwf ct hmem).2 (le_add_of_nonneg_right hdur)⟩
        · rcases List.mem_singleton.mp hb with rfl
          exact ⟨le_add_of_nonneg_right hdur, le_refl _⟩
      · intro lastCt hl
        rw [List.getLast?_concat] at hl
        cases Option.some.inj hl
        rfl
      · rw [List.chain'_append]
        refine ⟨hchain, List.chain'_singleton _, ?_⟩
        intro x hx y hy
        have hxeq : st.char_times.getLast? = some x := Option.mem_def.mp hx
        have hxmem : x ∈ st.char_times := by
          rcases List.mem_getLast?_eq_getLast hx with ⟨hne, rfl⟩
          exact List.getLast_mem hne
        cases Option.some.inj (Option.mem_def.mp hy)
        refine ⟨(hlast x hxeq).symm, (hwf x hxmem).2, ?_, ?_⟩
        · rw [← hlast x hxeq]
          exact Nat.le_add_right _ _
        · exact le_trans (hwf x hxmem).1 (hwf x hxmem).2

/-- Helper: folding the mora step over a phrase's morae preserves the
timeline invariant. -/
theorem tlGood_foldl_moras (speed_scale : ℚ) (hsp : 0 < speed_scale) :
    ∀ (moras : List Mora) (st : TLState),
      (∀ m ∈ moras, moraNonneg m) → tlGood st →
      tlGood (moras.foldl (moraStep speed_scale) st) := by
  intro moras
  induction moras with
  | nil => intro st _ hg; exact hg
  | cons m rest ih =>
    intro st h hg
    rw [List.foldl_cons]
    exact ih (moraStep speed_scale st m)
      (fun x hx => h x (List.mem_cons_of_mem m hx))
      (tlGood_moraStep speed_scale hsp st m (h m (List.mem_cons_self m rest)) hg)

/-- Helper: one successful phrase step preserves the timeline
invariant. -/
theorem tlGood_phraseStep (speed_scale : ℚ) (hsp : 0 < speed_scale)
    (st st' : TLState) (p : AccentPhrase) (hp : phraseNonneg p)
    (h : phraseStep speed_scale st p = .ok st') (hg : tlGood st) : tlGood st' := by
  have hfold := tlGood_foldl_moras speed_scale hsp (p.moras.getD []) st hp.1 hg
  cases hpm : p.pause_mora with
  | none =>
    simp only [phraseStep, hpm] at h
    exact Except.noConfusion h
  | some x =>
    cases x with
    | none =>
      simp only [phraseStep, hpm] at h
      cases h
      exact hfold
    | some pause =>
      simp only [phraseStep, hpm] at h
      cases h
      obtain ⟨hwf, hlast, hchain⟩ := hfold
      have hnn : 0 ≤ (pause.vowel_length.getD 0 + pause.consonant_length.getD 0)
          / (11/10 : ℚ) :=
        div_nonneg (add_nonneg (hp.2 pause hpm).1 (hp.2 pause hpm).2) (by norm_num)
      exact ⟨fun ct hct => ⟨(hwf ct hct).1,
               le_trans (hwf ct hct).2 (le_add_of_nonneg_right hnn)⟩,
             hlast, hchain⟩

/-- Helper: the whole successful timeline fold preserves the
invariant. -/
theorem tlGood_foldlM (speed_scale : ℚ) (hsp : 0 < speed_scale) :
    ∀ (phrases : List AccentPhrase) (st st' : TLState),
      (∀ p ∈ phrases, phraseNonneg p) →
      phrases.foldlM (phraseStep speed_scale) st = .ok st' →
      tlGood st → tlGood st' := by
  intro phrases
  induction phrases with
  | nil =>
    intro st st' _ h hg
    rw [List.foldlM_nil] at h
    cases h
    exact hg
  | cons p rest ih =>
    intro st st' hp h hg
    rw [List.foldlM_cons] at h
    cases h1 : phraseStep speed_scale st p with
    | error e => rw [h1, except_bind_error] at h; cases h
    | ok st1 =>
      rw [h1, except_bind_ok] at h
      exact ih st1 st' (fun x hx => hp x (List.mem_cons_of_mem p hx)) h
        (tlGood_phraseStep speed_scale hsp st st1 p (hp p (List.mem_cons_self p rest)) h1 hg)

/-- C4: with non-negative durations and positive speed scale, the
emitted sample sequence is `ctRel`-chained — consecutive samples
advance `char_pos` exactly by the consumed character's length and both
`char_pos` and `start_time` are non-decreasing (so the sequence is
ordered identically by either) — while a marker mora (one of the five
non-advancing texts) only adds its duration to elapsed time, emitting
no sample and not advancing the cursor. -/
theorem c4_timeline_monotone :
    (∀ (speed_scale : ℚ) (accent_phrases : List AccentPhrase) (st : TLState),
        0 < speed_scale →
        (∀ p ∈ accent_phrases, phraseNonneg p) →
        buildTimeline speed_scale accent_phrases = .ok st →
        List.Chain' ctRel st.char_times)
  ∧ (∀ (speed_scale : ℚ) (st : TLState) (mora : Mora) (ch : String),
        mora.text = some ch → ch ∈ pauseMarkers →
        moraStep speed_scale st mora =
          { st with cur_time := st.cur_time +
              (mora.consonant_length.getD 0 / speed_scale
                + mora.vowel_length.getD 0 / speed_scale) }) := by
  constructor
  · intro speed_scale accent_phrases st hsp hnn h
    exact (tlGood_foldlM speed_scale hsp accent_phrases _ st hnn h tlGood_init).2.2
  · intro speed_scale st mora ch hch hmark
    simp only [moraStep, hch, if_pos hmark]

/-- Witness for C4 at Scenario A's unit (morae `"コ"` and `"ン"`, 0.1 s
each, speed 1): the two samples are chained, and a `"pau"` marker only
consumes time. -/
theorem c4_timeline_monotone_witness :
    List.Chain' ctRel
      [{ char := "コ", char_pos := 0, start_time := 0, end_time := 1/10 },
       { char := "ン", char_pos := 1, start_time := 1/10, end_time := 1/5 }]
  ∧ moraStep 1 { char_times := [], cur_time := 0, cur_pos := 0 }
      { text := some "pau", consonant_length := none, vowel_length := some 1 } =
    { char_times := [], cur_time := 1, cur_pos := 0 } := by
  constructor
  · refine c4_timeline_monotone.1 1
      [{ moras := some
          [{ text := some "コ", consonant_length := some 0, vowel_length := some (1/10) },
           { text := some "ン", consonant_length := some 0, vowel_length := some (1/10) }],
         pause_mora := some none }]
      { char_times :=
          [{ char := "コ", char_pos := 0, start_time := 0, end_time := 1/10 },
           { char := "ン", char_pos := 1, start_time := 1/10, end_time := 1/5 }],
        cur_time := 1/5, cur_pos := 2 }
      (by norm_num) ?_ (by decide)
    intro p hp
    rcases List.mem_singleton.mp hp with rfl
    refine ⟨?_, ?_⟩
    · intro m hm
      rcases List.mem_cons.mp hm with rfl | hm2
      · exact ⟨by norm_num, by norm_num⟩
      · rcases List.mem_singleton.mp hm2 with rfl
        exact ⟨by norm_num, by norm_num⟩
    · intro pm hpm
      simp at hpm
  · exact (c4_timeline_monotone.2 1 _ _ "pau" rfl (by decide)).trans (by decide)

/-- Helper: when `speedScale` is not a literal `0`, the refactored
falsy-fallback speed equals the legacy `get("speedScale", 1.0)`. -/
theorem speed_eq (q : VoiceQuery) (h : q.speedScale ≠ some 0) :
    refacSpeed q = legacySpeed q := by
  unfold refacSpeed legacySpeed
  cases hs : q.speedScale with
  | none => rfl
  | some s =>
    have hs0 : s ≠ 0 := fun h0 => h (by rw [hs, h0])
    simp [hs0]

/-- Helper: the refactored mora step on a `1/s`-scaled state is the
scaled legacy mora step. -/
theorem moraStep_scale (s : ℚ) (st : TLState) (m : Mora) :
    moraStep s (scaleTL s st) m = scaleTL s (legacyMoraStep st m) := by
  cases hmt : m.text with
  | none => simp [moraStep, legacyMoraStep, hmt]
  | some ch =>
    by_cases hmark : ch ∈ pauseMarkers
    · simp [moraStep, legacyMoraStep, hmt, if_pos hmark, scaleTL, add_div]
    · simp [moraStep, legacyMoraStep, hmt, if_neg hmark, scaleTL, scaleCT,
        List.map_append, add_div]

/-- Helper: folding morae commutes with the `1/s` scaling. -/
theorem foldl_moras_scale (s : ℚ) :
    ∀ (moras : List Mora) (st : TLState),
      moras.foldl (moraStep s) (scaleTL s st) =
        scaleTL s (moras.foldl legacyMoraStep st) := by
  intro moras
  induction moras with
  | nil => intro st; rfl
  | cons m rest ih =>
    intro st
    rw [List.foldl_cons, List.foldl_cons, moraStep_scale]
    exact ih (legacyMoraStep st m)

/-- Helper: on a phrase whose pause mora is null, the refactored phrase
step is the scaled legacy phrase step. -/
theorem phraseStep_scale (s : ℚ) (st : TLState) (p : AccentPhrase)
    (hp : p.pause_mora = some none) :
    phraseStep s (scaleTL s st) p = .ok (scaleTL s (legacyPhraseStep st p)) := by
  simp only [phraseStep, legacyPhraseStep, hp, foldl_moras_scale]

/-- Helper: the whole timeline fold commutes with the `1/s` scaling
when every phrase's pause mora is null. -/
theorem fold_phrases_scale (s : ℚ) :
    ∀ (phrases : List AccentPhrase) (st : TLState),
      (∀ p ∈ phrases, p.pause_mora = some none) →
      phrases.foldlM (phraseStep s) (scaleTL s st) =
        .ok (scaleTL s (phrases.foldl legacyPhraseStep st)) := by
  intro phrases
  induction phrases with
  | nil => intro st _; rfl
  | cons p rest ih =>
    intro st h
    rw [List.foldlM_cons, List.foldl_cons,
      phraseStep_scale s st p (h p (List.mem_cons_self p rest)), except_bind_ok]
    exact ih (legacyPhraseStep st p) fun x hx => h x (List.mem_cons_of_mem p hx)

/-- Helper: scaling the empty state is a no-op. -/
theorem scaleTL_init (s : ℚ) :
    scaleTL s { char_times := [], cur_time := 0, cur_pos := 0 } =
      { char_times := [], cur_time := 0, cur_pos := 0 } := by
  simp [scaleTL, zero_div]

/-- Helper: the start-time scan over a scaled timeline returns the
scaled scan result (the scan's tests read only characters and
positions, which scaling preserves). -/
theorem findStartTime_scale (s : ℚ) (sp : SegPos) :
    ∀ (char_times : List CharTime),
      findStartTime sp (char_times.map (scaleCT s)) =
        (findStartTime sp char_times).map (fun t => t / s) := by
  intro char_times
  induction char_times with
  | nil => simp [findStartTime, Except.map, zero_div]
  | cons ct rest ih =>
    simp only [List.map_cons, findStartTime, scaleCT]
    by_cases h1 : sp.start_pos ≤ ct.char_pos
    · rw [if_pos h1, if_pos h1]
      by_cases h2 : ct.char = sp.start_chars.take ct.char.length
      · rw [if_pos h2, if_pos h2]
        rfl
      · rw [if_neg h2, if_neg h2]
        rfl
    · rw [if_neg h1, if_neg h1]
      exact ih

/-- Helper: the reversed end-time scan over a scaled timeline returns
the scaled scan result. -/
theorem findEndRev_scale (s cur_time : ℚ) (sp : SegPos) :
    ∀ (char_times : List CharTime),
      findEndRev (cur_time / s) sp (char_times.map (scaleCT s)) =
        (findEndRev cur_time sp char_times).map (fun t => t / s) := by
  intro char_times
  induction char_times with
  | nil => simp [findEndRev, Except.map]
  | cons ct rest ih =>
    simp only [List.map_cons, findEndRev, scaleCT]
    by_cases h1 : ct.char_pos < sp.end_pos
    · rw [if_pos h1, if_pos h1]
      by_cases h2 : ct.char = pySliceLast sp.end_chars ct.char.length
      · rw [if_pos h2, if_pos h2]
        rfl
      · rw [if_neg h2, if_neg h2]
        rfl
    · rw [if_neg h1, if_neg h1]
      exact ih

/-- Helper: the end-time scan over a scaled timeline returns the scaled
scan result. -/
theorem findEndTime_scale (s cur_time : ℚ) (sp : SegPos) (char_times : List CharTime) :
    findEndTime (cur_time / s) sp (char_times.map (scaleCT s)) =
      (findEndTime cur_time sp char_times).map (fun t => t / s) := by
  unfold findEndTime
  rw [← List.map_reverse]
  exact findEndRev_scale s cur_time sp char_times.reverse

/-- Helper: resolving one segment against the scaled timeline equals
the legacy resolution, which divides by the speed scale at the end. -/
theorem resolveSegment_scale (s cur_time : ℚ) (char_times : List CharTime)
    (ip : Nat × SegPos) :
    resolveSegment (char_times.map (scaleCT s)) (cur_time / s) ip =
      legacyResolveSegment char_times cur_time s ip := by
  unfold resolveSegment legacyResolveSegment
  rw [findStartTime_scale, findEndTime_scale]
  cases h1 : findStartTime ip.2 char_times with
  | error e => simp [h1, Except.map]
  | ok t =>
    simp only [h1, Except.map, except_bind_ok]
    cases h2 : findEndTime cur_time ip.2 char_times with
    | error e => simp [h2, Except.map]
    | ok t2 => simp [h2, Except.map]

/-- Helper: `mapM` over `Except` respects pointwise equal functions. -/
theorem mapM_congr_except {α β : Type} (f g : α → Except PyError β) :
    ∀ (l : List α), (∀ x ∈ l, f x = g x) → l.mapM f = l.mapM g := by
  intro l
  induction l with
  | nil => intro _; rfl
  | cons a rest ih =>
    intro h
    rw [List.mapM_cons, List.mapM_cons, h a (List.mem_cons_self a rest),
      ih fun x hx => h x (List.mem_cons_of_mem a hx)]

/-- C9 (amended): the legacy and refactored resolvers agree — as full
`Except` computations, not just on successes — whenever no accent
phrase carries a non-null pause mora and the speed scale is not the
literal falsy `0`; with a real pause mora they differ (see the
counterexample), because the legacy code adds the undamped pause
`vowel_length` before the final division by `speedScale` while the
refactored code adds the damped, undivided `(vowel+consonant)/1.1`. -/
theorem c9_resolvers_agree_without_pause :
    ∀ (query_data : VoiceQuery) (segments : List SegIn),
      (∀ p ∈ query_data.accent_phrases, p.pause_mora = some none) →
      query_data.speedScale ≠ some 0 →
      legacy_analyze_voice_query_timing query_data segments =
        analyze_voice_query_timing query_data segments := by
  intro q segs hpause hs
  have hbt : q.accent_phrases.foldlM (phraseStep (legacySpeed q))
      { char_times := [], cur_time := 0, cur_pos := 0 } =
      .ok (scaleTL (legacySpeed q) (q.accent_phrases.foldl legacyPhraseStep
        { char_times := [], cur_time := 0, cur_pos := 0 })) := by
    conv_lhs => rw [← scaleTL_init (legacySpeed q)]
    exact fold_phrases_scale (legacySpeed q) q.accent_phrases _ hpause
  simp only [legacy_analyze_voice_query_timing, analyze_voice_query_timing,
    legacyBuildTimeline, buildTimeline, speed_eq q hs, hbt, except_bind_ok, scaleTL]
  exact mapM_congr_except _ _ (locateSegments segs).enum fun ip _ =>
    (resolveSegment_scale (legacySpeed q)
      (q.accent_phrases.foldl legacyPhraseStep
        { char_times := [], cur_time := 0, cur_pos := 0 }).cur_time
      (q.accent_phrases.foldl legacyPhraseStep
        { char_times := [], cur_time := 0, cur_pos := 0 }).char_times ip).symm

/-- C9 counterexample: on `pauseQuery` both resolvers succeed but
disagree — the legacy second segment starts at `2.1` (pause vowel `1.1`
added undamped), the refactored one at `2.0` (pause `1.1/1.1 = 1`
added). -/
theorem c9_resolvers_differ_counterexample :
    legacy_analyze_voice_query_timing pauseQuery pauseSegs =
      .ok [{ index := 1, start_time := 0, end_time := 1, text := "a",
             kana_text := "ア", segment_type := "kana" },
           { index := 2, start_time := 21/10, end_time := 31/10, text := "b",
             kana_text := "イ", segment_type := "kana" }]
  ∧ analyze_voice_query_timing pauseQuery pauseSegs =
      .ok [{ index := 1, start_time := 0, end_time := 1, text := "a",
             kana_text := "ア", segment_type := "kana" },
           { index := 2, start_time := 2, end_time := 3, text := "b",
             kana_text := "イ", segment_type := "kana" }]
  ∧ (21/10 : ℚ) ≠ 2 := by
  refine ⟨by decide, by decide, by decide⟩

/-- Witness for C9: on the pause-free `exQuery` the two resolvers
return identical results. -/
theorem c9_resolvers_agree_witness :
    legacy_analyze_voice_query_timing exQuery
        [{ text := "a", kana_text := "ア", type := "kana" }] =
      analyze_voice_query_timing exQuery
        [{ text := "a", kana_text := "ア", type := "kana" }] :=
  c9_resolvers_agree_without_pause exQuery _
    (fun p hp => by rcases List.mem_singleton.mp hp with rfl; rfl)
    (by decide)
